import Mathlib

/-!
Arithmetic service over two named pipes: server.c and client.c.

A shallow embedding of the request/response records, of `process_request`,
of the client-side validation, and of the control flow of the two programs,
followed by the properties proved about them.

Conventions of the embedding.

* A `char` array is a `List UInt8` whose length is the declared array size;
  the size is carried by the predicates `message.wf` and `response.wf`.
* An `int` is an `Int` in the range `INT_MIN .. INT_MAX`; the result of an
  arithmetic operator is brought back into that range by `wrap32`
  (two's-complement wraparound, which ISO C does not promise for signed
  overflow; no property below depends on the value after an overflow except
  the evaluated instance that exhibits one).
* A read or a write outside an array, and a division that traps, make the
  modelled function return `none`: the C function produces no value there.
* A local variable that the C code declares without an initialiser is an
  explicit argument of the model: its fields hold whatever the storage held
  before the call.
* Results of system calls are inputs of the model (one record per loop
  iteration); the effects a process performs are appended to a trace.
-/

namespace Ipc

/-! ## Machine integers -/

def INT_MIN : Int := -2147483648

def INT_MAX : Int := 2147483647

/-- Membership in the range of a signed 32-bit `int`. -/
def in_int (x : Int) : Prop := INT_MIN ≤ x ∧ x ≤ INT_MAX

instance (x : Int) : Decidable (in_int x) :=
  inferInstanceAs (Decidable (INT_MIN ≤ x ∧ x ≤ INT_MAX))

/-- Two's-complement reduction of an integer into the `int` range. -/
def wrap32 (x : Int) : Int := (x + 2147483648) % 4294967296 - 2147483648

/-! ## C strings -/

/-- The characters of a string as bytes, without a terminator. -/
def str (s : String) : List UInt8 := s.toList.map (fun c => UInt8.ofNat c.toNat)

/-- The storage of a string literal: its characters followed by NUL. -/
def lit (s : String) : List UInt8 := str s ++ [0]

/-- The NUL-terminated string held at the start of a buffer; `none` when the
buffer holds no NUL. -/
def cstr : List UInt8 → Option (List UInt8)
  | [] => none
  | c :: cs => if c = 0 then some [] else (cstr cs).map (fun t => c :: t)

/-- The library function `strcmp(a, b)`: bytes are compared in order until they differ or both are
NUL. The value is the difference of the first differing bytes, `0` when the
strings are equal, and `none` when the comparison would leave a buffer. -/
def strcmp : List UInt8 → List UInt8 → Option Int
  | [], _ => none
  | _, [] => none
  | a :: as, b :: bs =>
    if a ≠ b then some ((a.toNat : Int) - (b.toNat : Int))
    else if a = 0 then some 0
    else strcmp as bs

/-- The library function `strcpy(dst, src)`: the bytes of `src` up to and including its NUL are
stored at the start of `dst`; the rest of `dst` is left as it was. `none`
when `src` has no NUL or `dst` is too short. -/
def strcpy : List UInt8 → List UInt8 → Option (List UInt8)
  | _, [] => none
  | [], _ :: _ => none
  | _ :: ds, c :: cs =>
    if c = 0 then some (0 :: ds) else (strcpy ds cs).map (fun t => c :: t)

/-- The library function `strncpy(dst, src, n)`: `n` bytes are stored in `dst`; they are the bytes
of `src` up to its NUL, then NUL padding. -/
def strncpy : List UInt8 → List UInt8 → Nat → Option (List UInt8)
  | dst, _, 0 => some dst
  | [], _, _ + 1 => none
  | _ :: _, [], _ + 1 => none
  | _ :: ds, c :: cs, n + 1 =>
    if c = 0 then (strncpy ds [0] n).map (fun t => 0 :: t)
    else (strncpy ds cs n).map (fun t => c :: t)

/-- The assignment `buf[i] = v`. -/
def store (buf : List UInt8) (i : Nat) (v : UInt8) : Option (List UInt8) :=
  if i < buf.length then some (buf.set i v) else none

/-! ## Records -/

/-- The request record `struct message`. -/
structure message where
  operation : List UInt8
  operand1 : Int
  operand2 : Int
  client_pid : Int
deriving DecidableEq, Repr

/-- The response record `struct response`. -/
structure response where
  result : Int
  error : Int
  error_msg : List UInt8
deriving DecidableEq, Repr

/-- A request as it sits in memory: a 4-byte `operation` and three `int`s. -/
def message.wf (m : message) : Prop :=
  m.operation.length = 4 ∧ in_int m.operand1 ∧ in_int m.operand2 ∧ in_int m.client_pid

instance (m : message) : Decidable m.wf :=
  inferInstanceAs (Decidable
    (m.operation.length = 4 ∧ in_int m.operand1 ∧ in_int m.operand2 ∧ in_int m.client_pid))

/-- A response as it sits in memory: two `int`s and a 64-byte `error_msg`. -/
def response.wf (r : response) : Prop :=
  in_int r.result ∧ in_int r.error ∧ r.error_msg.length = 64

instance (r : response) : Decidable r.wf :=
  inferInstanceAs (Decidable (in_int r.result ∧ in_int r.error ∧ r.error_msg.length = 64))

/-- The value of `sizeof(struct message)`: four bytes and three `int`s. -/
def sizeof_message : Int := 16

/-- The value of `sizeof(struct response)`: two `int`s and 64 bytes. -/
def sizeof_response : Int := 72

/-! ## server.c: `process_request` -/

/-- The operator `/` on two `int`s. It has no value when the divisor is 0 and
when the quotient is not an `int` (`INT_MIN / -1`): the division traps and
the process is killed. Otherwise the quotient is truncated toward zero; it is
an `int`, on which `wrap32` is the identity. -/
def int_div (a b : Int) : Option Int :=
  if b = 0 then none
  else if a = INT_MIN ∧ b = -1 then none
  else some (wrap32 (Int.tdiv a b))

namespace Server

/-- The function `process_request(msg)` (server.c, lines 61-85). The argument
`resp` is the content of the local `struct response resp` at entry, which the
C code does not initialise. The operators `+`, `-`, `*` wrap around; `/` is
`int_div`, so the value is `none` when the division traps and no response is
produced. -/
def process_request (msg : message) (resp : response) : Option response := do
  let resp := { resp with error := 0 }
  let resp := { resp with error_msg := ← store resp.error_msg 0 0 }
  if (← strcmp msg.operation (lit "add")) = 0 then
    pure { resp with result := wrap32 (msg.operand1 + msg.operand2) }
  else if (← strcmp msg.operation (lit "sub")) = 0 then
    pure { resp with result := wrap32 (msg.operand1 - msg.operand2) }
  else if (← strcmp msg.operation (lit "mul")) = 0 then
    pure { resp with result := wrap32 (msg.operand1 * msg.operand2) }
  else if (← strcmp msg.operation (lit "div")) = 0 then
    if msg.operand2 = 0 then
      let resp := { resp with error := 1 }
      pure { resp with error_msg := ← strcpy resp.error_msg (lit "Division by zero") }
    else
      pure { resp with result := ← int_div msg.operand1 msg.operand2 }
  else
    let resp := { resp with error := 1 }
    pure { resp with error_msg := ← strcpy resp.error_msg (lit "Invalid operation") }

end Server

/-! ## server.c: globals, effects and the file system -/

def REQUEST_FIFO : String := "/tmp/fifo_request"

def RESPONSE_FIFO : String := "/tmp/fifo_response"

def EINTR : Int := 4

def EEXIST : Int := 17

/-- The externally visible actions of a process, in program order;
`write_request` is the client's `write` of a request record. -/
inductive Effect where
  | printf (fmt : String) (args : List Int)
  | printf_s (fmt : String) (arg : Option (List UInt8))
  | fprintf_log (fmt : String) (args : List Int)
  | perror (s : String)
  | write_request (fd : Int) (msg : message)
  | close (fd : Int)
  | fclose_log
  | unlink (path : String)
  | waitpid_sweep
deriving DecidableEq, Repr

namespace Server

/-- The globals of server.c (`request_fd`, `log_file`, `keep_running`),
`errno`, the set of paths that exist in the file system, the children
created by `fork` (pid and private copy of the request), and the trace of
effects. -/
structure State where
  request_fd : Int
  log_file : Bool
  keep_running : Int
  errno : Int
  fs : List String
  workers : List (Int × message)
  trace : List Effect
deriving DecidableEq, Repr

/-- What the environment answers during startup: `getpid()`, whether
`fopen` of the log succeeds, the paths that exist beforehand, the error (if
any) of each `mkfifo`, and a termination signal handled before the loop is
entered. -/
structure Startup where
  pid : Int
  fopen_ok : Bool
  fs : List String
  mkfifo_request : Option Int
  mkfifo_response : Option Int
  signal : Option Int
deriving DecidableEq, Repr

/-- What the environment answers during one pass of the dispatch loop: a
termination signal handled during the pass, the value and `errno` of
`open`, of `read` (with `buf` the content of `msg` afterwards) and of
`fork`. -/
structure Iteration where
  signal : Option Int
  open_ret : Int
  open_errno : Int
  bytes_read : Int
  read_errno : Int
  buf : message
  fork_ret : Int
  fork_errno : Int
deriving DecidableEq, Repr

/-- Where control goes after one pass of the loop body. -/
inductive Control where
  | next
  | ret (code : Int)
  | worker (msg : message)
deriving DecidableEq, Repr

/-- How a run of `main` over the supplied answers ends: `main` returned,
the process is a forked child that calls `handle_client(&msg)` and
`exit(0)`, or the server is still in its loop. -/
inductive Outcome where
  | returned (code : Int) (s : State)
  | worker (msg : message) (s : State)
  | running (s : State)
deriving DecidableEq, Repr

def emit (s : State) (e : Effect) : State := { s with trace := s.trace ++ [e] }

/-- The call `unlink(path)`, taken to succeed: the path no longer exists. -/
def unlink (s : State) (path : String) : State :=
  emit { s with fs := s.fs.filter (fun p => p ≠ path) } (.unlink path)

/-- The call `mkfifo(path, 0666)`: fails when the path exists or when the
environment says so, otherwise creates the path. -/
def mkfifo (s : State) (path : String) (fail : Option Int) : State × Int :=
  if path ∈ s.fs then ({ s with errno := EEXIST }, -1)
  else
    match fail with
    | some e => ({ s with errno := e }, -1)
    | none => ({ s with fs := path :: s.fs }, 0)

/-- The function `cleanup()` (server.c, lines 36-45). -/
def cleanup (s : State) : State :=
  let s := if s.request_fd ≠ -1 then emit s (.close s.request_fd) else s
  let s := if s.log_file then emit s .fclose_log else s
  let s := unlink s REQUEST_FIFO
  unlink s RESPONSE_FIFO

/-- The function `signal_handler(signum)` (server.c, lines 48-51). -/
def signal_handler (s : State) (signum : Int) : State :=
  let s := emit s (.printf "\nServer: Received signal %d, shutting down...\n" [signum])
  { s with keep_running := 0 }

/-- A termination signal, when one is delivered, runs the handler. -/
def deliver (s : State) : Option Int → State
  | some signum => signal_handler s signum
  | none => s

/-- The body of `while (keep_running)` in `main` (server.c, lines 180-232),
for the process that entered it. A signal of this pass is handled at its
start; the body never reads `keep_running`. -/
def loop_body (pid : Int) (s : State) (it : Iteration) : State × Control :=
  let s := deliver s it.signal
  let s := { s with request_fd := it.open_ret }
  if s.request_fd = -1 then
    let s := { s with errno := it.open_errno }
    if s.errno = EINTR then
      (s, .next)
    else
      let s := emit s (.perror "Server: Error opening request FIFO")
      (cleanup s, .ret 1)
  else
    let bytes_read := it.bytes_read
    let s := if bytes_read = -1 then { s with errno := it.read_errno } else s
    if bytes_read = sizeof_message then
      let s := emit s (.printf "Server [Parent PID %d]: Received request from Client PID %d\n"
        [pid, it.buf.client_pid])
      let fpid := it.fork_ret
      if fpid < 0 then
        let s := { s with errno := it.fork_errno }
        let s := emit s (.perror "Server: Fork failed")
        let s := emit s (.close s.request_fd)
        (s, .next)
      else if fpid = 0 then
        let s := emit s (.close s.request_fd)
        (s, .worker it.buf)
      else
        let s := { s with workers := s.workers ++ [(fpid, it.buf)] }
        let s := emit s (.printf "Server [Parent PID %d]: Forked child PID %d to handle client\n"
          [pid, fpid])
        let s := emit s (.close s.request_fd)
        ({ s with request_fd := -1 }, .next)
    else if bytes_read = 0 then
      let s := emit s (.printf "Server: Client disconnected, waiting for next request...\n" [])
      let s := emit s (.close s.request_fd)
      ({ s with request_fd := -1 }, .next)
    else
      let s := if s.errno ≠ EINTR then emit s (.perror "Server: Error reading request") else s
      let s := emit s (.close s.request_fd)
      ({ s with request_fd := -1 }, .next)

/-- The code of `main` after the loop (server.c, lines 235-243). -/
def shutdown (s : State) : Outcome :=
  let s := emit s (.printf "\nServer: Cleaning up and exiting...\n" [])
  let s := emit s (.printf "Server: Waiting for child processes to complete...\n" [])
  let s := emit s .waitpid_sweep
  let s := cleanup s
  let s := emit s (.printf "Server: Shutdown complete\n" [])
  .returned 0 s

/-- The loop `while (keep_running)` of `main` (server.c, line 179), run
over the answers of the environment for successive passes. -/
def dispatch_loop (pid : Int) : State → List Iteration → Outcome
  | s, [] => if s.keep_running ≠ 0 then .running s else shutdown s
  | s, it :: rest =>
    if s.keep_running ≠ 0 then
      match loop_body pid s it with
      | (s', .next) => dispatch_loop pid s' rest
      | (s', .ret code) => .returned code s'
      | (s', .worker msg) => .worker msg s'
    else shutdown s

/-- The globals as initialised at program start, over the file system
found. -/
def initial (fs : List String) : State :=
  { request_fd := -1, log_file := false, keep_running := 1, errno := 0,
    fs := fs, workers := [], trace := [] }

/-- The startup part of `main` (server.c, lines 138-176): the state in which
the loop is entered, or the state and code with which `main` returns. -/
def startup (st : Startup) : State ⊕ (Int × State) :=
  let s := deliver (initial st.fs) st.signal
  if ¬ st.fopen_ok then
    .inr (1, emit s (.perror "Server: Error opening log file"))
  else
    let s := { s with log_file := true }
    let s := emit s (.printf "Server: Starting up (PID: %d)...\n" [st.pid])
    let s := emit s (.fprintf_log "\n=== Server Started (PID: %d) ===\n" [st.pid])
    let s := emit s .fclose_log
    let s := { s with log_file := false }
    let s := unlink s REQUEST_FIFO
    let s := unlink s RESPONSE_FIFO
    let (s, r1) := mkfifo s REQUEST_FIFO st.mkfifo_request
    if r1 = -1 then
      .inr (1, emit s (.perror "Server: Error creating request FIFO"))
    else
      let (s, r2) := mkfifo s RESPONSE_FIFO st.mkfifo_response
      if r2 = -1 then
        let s := emit s (.perror "Server: Error creating response FIFO")
        .inr (1, unlink s REQUEST_FIFO)
      else
        let s := emit s (.printf "Server: FIFOs created successfully\n" [])
        let s := emit s (.printf "Server: Waiting for client requests... (Press Ctrl+C to stop)\n" [])
        let s := emit s (.printf "Server: Using fork() to handle multiple clients concurrently\n\n" [])
        .inl s

/-- The function `main` of server.c: startup, then the loop. -/
def main (st : Startup) (its : List Iteration) : Outcome :=
  match startup st with
  | .inr (code, s) => .returned code s
  | .inl s => dispatch_loop st.pid s its

end Server

/-! ## client.c -/

namespace Client

/-- The function `is_valid_operation(op)` (client.c, lines 28-33); `||` yields 1 or 0 and
evaluates its right operand only when the left one is 0. -/
def is_valid_operation (op : List UInt8) : Option Int := do
  if (← strcmp op (lit "add")) = 0 then pure 1
  else if (← strcmp op (lit "sub")) = 0 then pure 1
  else if (← strcmp op (lit "mul")) = 0 then pure 1
  else if (← strcmp op (lit "div")) = 0 then pure 1
  else pure 0

/-- The two statements of `main` that fill `msg.operation` (client.c, lines
116-117): `strncpy(msg.operation, operation, 3); msg.operation[3] = 0`. -/
def copy_operation (field operation : List UInt8) : Option (List UInt8) := do
  let field ← strncpy field operation 3
  store field 3 0

/-- What the environment answers during `communicate_with_server`: the
values of the two `open`s, of `write` and of `read`, with `resp` the content
of the local `resp` after the `read`. -/
structure Session where
  open_request : Int
  write_ret : Int
  open_response : Int
  bytes_read : Int
  resp : response
deriving DecidableEq, Repr

/-- The function `communicate_with_server(msg)` (client.c, lines 36-82): the value
returned and the effects performed. -/
def communicate_with_server (msg : message) (io : Session) : Int × List Effect :=
  let request_fd := io.open_request
  if request_fd = -1 then
    (-1, [.perror "Client: Error opening request FIFO",
          .printf "Client: Is the server running?\n" []])
  else if io.write_ret = -1 then
    (-1, [.write_request request_fd msg, .perror "Client: Error sending request",
          .close request_fd])
  else
    let response_fd := io.open_response
    if response_fd = -1 then
      (-1, [.write_request request_fd msg, .close request_fd,
            .perror "Client: Error opening response FIFO"])
    else
      let bytes_read := io.bytes_read
      if bytes_read ≠ sizeof_response then
        (-1, [.write_request request_fd msg, .close request_fd,
              .perror "Client: Error reading response", .close response_fd])
      else if io.resp.error ≠ 0 then
        (0, [.write_request request_fd msg, .close request_fd, .close response_fd,
             .printf_s "Client: Error from server: %s\n" (cstr io.resp.error_msg)])
      else
        (0, [.write_request request_fd msg, .close request_fd, .close response_fd,
             .printf "Client: Result from server: %d\n" [io.resp.result]])

/-- The effects with which the client shows a response to the user. -/
def displays_result : Effect → Bool
  | .printf_s "Client: Error from server: %s\n" _ => true
  | .printf "Client: Result from server: %d\n" _ => true
  | _ => false

end Client

/-! ## The specification's reading of the arithmetic -/

/-- The four operator codes. -/
def codes : List (List UInt8) := [str "add", str "sub", str "mul", str "div"]

/-- The exact value, over the integers, of the operator named by `op`
applied to the operands; the quotient of `div` is truncated toward zero. -/
def exact_value (op : List UInt8) (a b : Int) : Int :=
  if op = str "add" then a + b
  else if op = str "sub" then a - b
  else if op = str "mul" then a * b
  else Int.tdiv a b

/-- Auxiliary: the value of `process_request`, written in closed form over
the string held in the operation field; `process_request_eq` proves the two
equal. -/
def response_of (msg : message) (g : response) : Option response :=
  if cstr msg.operation = some (str "add") then
    some ⟨wrap32 (msg.operand1 + msg.operand2), 0, 0 :: g.error_msg.tail⟩
  else if cstr msg.operation = some (str "sub") then
    some ⟨wrap32 (msg.operand1 - msg.operand2), 0, 0 :: g.error_msg.tail⟩
  else if cstr msg.operation = some (str "mul") then
    some ⟨wrap32 (msg.operand1 * msg.operand2), 0, 0 :: g.error_msg.tail⟩
  else if cstr msg.operation = some (str "div") then
    if msg.operand2 = 0 then
      some ⟨g.result, 1, str "Division by zero" ++ 0 :: (0 :: g.error_msg.tail).drop 17⟩
    else if msg.operand1 = INT_MIN ∧ msg.operand2 = -1 then
      none
    else
      some ⟨wrap32 (Int.tdiv msg.operand1 msg.operand2), 0, 0 :: g.error_msg.tail⟩
  else
    some ⟨g.result, 1, str "Invalid operation" ++ 0 :: (0 :: g.error_msg.tail).drop 18⟩

/-- The one request on which the division of `process_request` traps. -/
def traps (msg : message) : Prop :=
  cstr msg.operation = some (str "div") ∧ msg.operand1 = INT_MIN ∧ msg.operand2 = -1

instance (msg : message) : Decidable (traps msg) :=
  inferInstanceAs (Decidable
    (cstr msg.operation = some (str "div") ∧ msg.operand1 = INT_MIN ∧ msg.operand2 = -1))

/-! ## Sample values for evaluated instances -/

/-- A content of the uninitialised local `resp`. -/
def stale : response := ⟨12345, -7, List.replicate 64 0xAA⟩

/-- Another content of the uninitialised local `resp`. -/
def stale_other : response := ⟨-1, 0, List.replicate 64 0x55⟩

def req_add_2_3 : message := ⟨lit "add", 2, 3, 4242⟩

def req_add_overflow : message := ⟨lit "add", 2147483647, 1, 4242⟩

def req_div_7_0 : message := ⟨lit "div", 7, 0, 4242⟩

def req_div_7_0_other : message := ⟨lit "div", 7, 0, 777⟩

/-- The request div(INT_MIN, -1), which a client can send. -/
def req_div_trap : message := ⟨lit "div", -2147483648, -1, 4242⟩

/-- An operation field without a NUL in its four bytes. -/
def req_no_nul : message := ⟨[97, 100, 100, 100], 1, 1, 4242⟩

/-- The client's `char operation[10]` after `scanf` stored "mul". -/
def input_mul : List UInt8 := lit "mul" ++ [9, 8, 7, 6, 5, 4]

namespace Server

/-- The code with which `main` returned, if it did. -/
def Outcome.code : Outcome → Option Int
  | .returned c _ => some c
  | .worker _ _ => none
  | .running _ => none

/-- The state in which a run ended. -/
def Outcome.state : Outcome → State
  | .returned _ s => s
  | .worker _ s => s
  | .running s => s

end Server

/-- A startup in which everything succeeds; a stale request FIFO exists. -/
def boot : Server.Startup := ⟨1000, true, [REQUEST_FIFO, "server_log.txt"], none, none, none⟩

/-- A startup in which the second `mkfifo` fails (ENOSPC). -/
def boot_second_mkfifo_fails : Server.Startup :=
  ⟨1000, true, [REQUEST_FIFO, "server_log.txt"], none, some 28, none⟩

/-- The server at the top of its loop, both FIFOs present. -/
def ready : Server.State :=
  { request_fd := -1, log_file := false, keep_running := 1, errno := 0,
    fs := [RESPONSE_FIFO, REQUEST_FIFO], workers := [], trace := [] }

/-- The server at the top of its loop after the handler cleared the flag. -/
def stopping : Server.State := { ready with keep_running := 0 }

/-- A pass with a full request and a successful `fork` (in the parent). -/
def pass_ok : Server.Iteration := ⟨none, 3, 0, 16, 0, req_add_2_3, 1001, 0⟩

/-- A pass whose `open` fails with EACCES. -/
def pass_open_denied : Server.Iteration := ⟨none, -1, 13, 0, 0, req_add_2_3, 0, 0⟩

/-- A pass whose `open` is interrupted (EINTR), no termination signal. -/
def pass_eintr : Server.Iteration := ⟨none, -1, 4, 0, 0, req_add_2_3, 0, 0⟩

/-- A pass in which SIGTERM is handled and `open` is interrupted. -/
def pass_sigterm : Server.Iteration := ⟨some 15, -1, 4, 0, 0, req_add_2_3, 0, 0⟩

/-- A pass whose `read` returns 7 bytes. -/
def pass_short_read : Server.Iteration := ⟨none, 3, 0, 7, 0, req_add_2_3, 1001, 0⟩

/-- A pass whose `read` returns 0. -/
def pass_zero_read : Server.Iteration := ⟨none, 3, 0, 0, 0, req_add_2_3, 1001, 0⟩

/-- A pass with a full request whose `fork` fails (EAGAIN). -/
def pass_fork_failed : Server.Iteration := ⟨none, 3, 0, 16, 0, req_add_2_3, -1, 11⟩

/-- A client session whose `read` of the response returns 10 bytes. -/
def session_short : Client.Session := ⟨3, 16, 4, 10, stale⟩

/-! ## Lemmas on the string functions -/

theorem u8_sub_eq_zero (a b : UInt8) : ((a.toNat : Int) - (b.toNat : Int) = 0) ↔ a = b := by
  constructor
  · intro h
    have h1 : a.toNat = b.toNat := by omega
    cases a; cases b
    simp only [UInt8.toNat] at h1
    congr
    exact BitVec.eq_of_toNat_eq h1
  · rintro rfl; simp

theorem strcmp_lit (s : List UInt8) (hs : ∀ c ∈ s, c ≠ 0) :
    ∀ a : List UInt8, s.length < a.length →
      ∃ c, strcmp a (s ++ [0]) = some c ∧ (c = 0 ↔ cstr a = some s) := by
  induction s with
  | nil =>
    intro a ha
    cases a with
    | nil => simp at ha
    | cons x xs =>
      by_cases hx : x = 0
      · subst hx; exact ⟨0, by simp [strcmp], by simp [cstr]⟩
      · refine ⟨(x.toNat : Int) - ((0 : UInt8).toNat : Int), by simp [strcmp, hx], ?_⟩
        rw [u8_sub_eq_zero]
        simp [cstr, hx]
  | cons y ys ih =>
    intro a ha
    have hy : y ≠ 0 := hs y (by simp)
    have hys : ∀ c ∈ ys, c ≠ 0 := fun c hc => hs c (by simp [hc])
    cases a with
    | nil => simp at ha
    | cons x xs =>
      have hlen : ys.length < xs.length := by simpa using ha
      by_cases hxy : x = y
      · subst hxy
        obtain ⟨c, hc, hiff⟩ := ih hys xs hlen
        refine ⟨c, by simp [strcmp, hy, hc], ?_⟩
        rw [hiff]
        simp [cstr, hy]
      · refine ⟨(x.toNat : Int) - (y.toNat : Int), by simp [strcmp, hxy], ?_⟩
        rw [u8_sub_eq_zero]
        by_cases hx : x = 0
        · subst hx
          simp [cstr, hxy, Ne.symm hy]
        · simp [cstr, hx, hxy]

theorem strcpy_lit (s : List UInt8) (hs : ∀ c ∈ s, c ≠ 0) :
    ∀ dst : List UInt8, s.length < dst.length →
      strcpy dst (s ++ [0]) = some (s ++ 0 :: dst.drop (s.length + 1)) := by
  induction s with
  | nil =>
    intro dst h
    cases dst with
    | nil => simp at h
    | cons d ds => simp [strcpy]
  | cons y ys ih =>
    intro dst h
    have hy : y ≠ 0 := hs y (by simp)
    have hys : ∀ c ∈ ys, c ≠ 0 := fun c hc => hs c (by simp [hc])
    cases dst with
    | nil => simp at h
    | cons d ds =>
      have hlen : ys.length < ds.length := by simpa using h
      simp [strcpy, hy, ih hys ds hlen]

theorem cstr_append (s : List UInt8) (hs : ∀ c ∈ s, c ≠ 0) (t : List UInt8) :
    cstr (s ++ 0 :: t) = some s := by
  induction s with
  | nil => simp [cstr]
  | cons y ys ih =>
    have hy : y ≠ 0 := hs y (by simp)
    have hys : ∀ c ∈ ys, c ≠ 0 := fun c hc => hs c (by simp [hc])
    simp [cstr, hy, ih hys]


theorem str_add_nonzero : ∀ c ∈ str "add", c ≠ 0 := by decide

theorem str_sub_nonzero : ∀ c ∈ str "sub", c ≠ 0 := by decide

theorem str_mul_nonzero : ∀ c ∈ str "mul", c ≠ 0 := by decide

theorem str_div_nonzero : ∀ c ∈ str "div", c ≠ 0 := by decide

theorem str_dbz_nonzero : ∀ c ∈ str "Division by zero", c ≠ 0 := by decide

theorem str_inv_nonzero : ∀ c ∈ str "Invalid operation", c ≠ 0 := by decide

theorem process_request_eq (msg : message) (g : response)
    (hm : msg.operation.length = 4) (hg : g.error_msg.length = 64) :
    Server.process_request msg g = response_of msg g := by
  obtain ⟨c1, h1, e1⟩ := strcmp_lit (str "add") str_add_nonzero msg.operation (by rw [hm]; decide)
  obtain ⟨c2, h2, e2⟩ := strcmp_lit (str "sub") str_sub_nonzero msg.operation (by rw [hm]; decide)
  obtain ⟨c3, h3, e3⟩ := strcmp_lit (str "mul") str_mul_nonzero msg.operation (by rw [hm]; decide)
  obtain ⟨c4, h4, e4⟩ := strcmp_lit (str "div") str_div_nonzero msg.operation (by rw [hm]; decide)
  have hstore : store g.error_msg 0 0 = some (0 :: g.error_msg.tail) := by
    cases hgm : g.error_msg with
    | nil => rw [hgm] at hg; simp at hg
    | cons d ds => simp [store]
  have hlen : (0 :: g.error_msg.tail).length = 64 := by simp [hg]
  have hdbz := strcpy_lit (str "Division by zero") str_dbz_nonzero (0 :: g.error_msg.tail)
    (by rw [hlen]; decide)
  have hinv := strcpy_lit (str "Invalid operation") str_inv_nonzero (0 :: g.error_msg.tail)
    (by rw [hlen]; decide)
  have l1 : (str "Division by zero").length + 1 = 17 := by decide
  have l2 : (str "Invalid operation").length + 1 = 18 := by decide
  rw [l1] at hdbz
  rw [l2] at hinv
  unfold Server.process_request response_of
  simp only [lit, hstore, h1, h2, h3, h4, Option.bind_eq_bind, Option.some_bind, Option.pure_def]
  by_cases hc1 : c1 = 0
  · rw [if_pos hc1, if_pos (e1.mp hc1)]
  · have n1 := mt e1.mpr hc1
    rw [if_neg hc1, if_neg n1]
    by_cases hc2 : c2 = 0
    · rw [if_pos hc2, if_pos (e2.mp hc2)]
    · have n2 := mt e2.mpr hc2
      rw [if_neg hc2, if_neg n2]
      by_cases hc3 : c3 = 0
      · rw [if_pos hc3, if_pos (e3.mp hc3)]
      · have n3 := mt e3.mpr hc3
        rw [if_neg hc3, if_neg n3]
        by_cases hc4 : c4 = 0
        · rw [if_pos hc4, if_pos (e4.mp hc4)]
          by_cases hb : msg.operand2 = 0
          · rw [if_pos hb, if_pos hb, hdbz, Option.some_bind]
          · rw [if_neg hb, if_neg hb]
            unfold int_div
            rw [if_neg hb]
            by_cases ht : msg.operand1 = INT_MIN ∧ msg.operand2 = -1
            · rw [if_pos ht, if_pos ht, Option.none_bind]
            · rw [if_neg ht, if_neg ht, Option.some_bind]
        · have n4 := mt e4.mpr hc4
          rw [if_neg hc4, if_neg n4, hinv, Option.some_bind]

theorem wrap32_of_in_int (x : Int) (h : in_int x) : wrap32 x = x := by
  unfold in_int INT_MIN INT_MAX at h
  unfold wrap32
  omega

theorem process_request_wf (msg : message) (g : response) (hm : msg.wf) (hg : g.wf) :
    Server.process_request msg g = response_of msg g :=
  process_request_eq msg g hm.1 hg.2.2

theorem str_codes_ne :
    str "sub" ≠ str "add" ∧ str "mul" ≠ str "add" ∧ str "div" ≠ str "add" ∧
    str "mul" ≠ str "sub" ∧ str "div" ≠ str "sub" ∧ str "div" ≠ str "mul" := by
  decide

/-- The division of `process_request` traps on div(INT_MIN, -1): no response
is produced. -/
theorem process_request_trap (msg : message) (g : response) (hm : msg.wf) (hg : g.wf)
    (ht : traps msg) : Server.process_request msg g = none := by
  obtain ⟨d12, d13, d14, d23, d24, d34⟩ := str_codes_ne
  obtain ⟨hc, ha, hb⟩ := ht
  have hb0 : msg.operand2 ≠ 0 := by rw [hb]; decide
  rw [process_request_wf msg g hm hg]
  simp [response_of, hc, d14, d24, d34, hb0, ha, hb]

/-- A response is produced for every request on which the division does not
trap. -/
theorem process_request_defined (msg : message) (g : response) (hm : msg.wf) (hg : g.wf)
    (hnt : ¬ traps msg) : ∃ r, Server.process_request msg g = some r := by
  rw [process_request_wf msg g hm hg]
  unfold response_of
  split_ifs with c1 c2 c3 c4 hb ht
  · exact ⟨_, rfl⟩
  · exact ⟨_, rfl⟩
  · exact ⟨_, rfl⟩
  · exact ⟨_, rfl⟩
  · exact absurd ⟨c4, ht⟩ hnt
  · exact ⟨_, rfl⟩
  · exact ⟨_, rfl⟩

theorem drop_after_store (buf : List UInt8) (n : Nat) :
    (0 :: buf.tail).drop (n + 1) = buf.drop (n + 1) := by
  cases buf <;> simp

theorem drop_past (s t : List UInt8) (c : UInt8) :
    (s ++ c :: t).drop (s.length + 1) = t := by
  induction s with
  | nil => simp
  | cons x xs ih => simp [ih]

/-- What every response of `process_request` looks like. -/
theorem response_shape (msg : message) (g r : response) (h : response_of msg g = some r) :
    (r.error = 0 ∧ r.error_msg = 0 :: g.error_msg.tail ∧
      ∃ op ∈ codes, cstr msg.operation = some op ∧
        ¬ (op = str "div" ∧ msg.operand2 = 0) ∧
        r.result = wrap32 (exact_value op msg.operand1 msg.operand2)) ∨
    (r.error = 1 ∧ r.result = g.result ∧
      cstr msg.operation = some (str "div") ∧ msg.operand2 = 0 ∧
      r.error_msg = str "Division by zero" ++ 0 :: g.error_msg.drop 17) ∨
    (r.error = 1 ∧ r.result = g.result ∧
      (∀ op ∈ codes, cstr msg.operation ≠ some op) ∧
      r.error_msg = str "Invalid operation" ++ 0 :: g.error_msg.drop 18) := by
  obtain ⟨d12, d13, d14, d23, d24, d34⟩ := str_codes_ne
  have k17 := drop_after_store g.error_msg 16
  have k18 := drop_after_store g.error_msg 17
  unfold response_of at h
  split_ifs at h with c1 c2 c3 c4 hb ht
  · cases h
    exact Or.inl ⟨rfl, rfl, str "add", by simp [codes], c1, by simp [d14.symm],
      by simp [exact_value]⟩
  · cases h
    exact Or.inl ⟨rfl, rfl, str "sub", by simp [codes], c2, by simp [d24.symm],
      by simp [exact_value, d12]⟩
  · cases h
    exact Or.inl ⟨rfl, rfl, str "mul", by simp [codes], c3, by simp [d34.symm],
      by simp [exact_value, d13, d23]⟩
  · cases h
    exact Or.inr (Or.inl ⟨rfl, rfl, c4, hb, by rw [k17]⟩)
  · cases h
    exact Or.inl ⟨rfl, rfl, str "div", by simp [codes], c4, by simp [hb],
      by simp [exact_value, d14, d24, d34]⟩
  · cases h
    refine Or.inr (Or.inr ⟨rfl, rfl, ?_, by rw [k18]⟩)
    intro op hop
    simp only [codes, List.mem_cons, List.mem_singleton, List.not_mem_nil, or_false] at hop
    rcases hop with r | r | r | r <;> subst r
    · exact c1
    · exact c2
    · exact c3
    · exact c4

/-! ## Properties of `process_request` -/

/-- C1, as stated, fails: for the request add(2147483647, 1) the code answers
error = 0 and result = -2147483648, while the exact sum is 2147483648. -/
theorem C1_counterexample :
    req_add_overflow.wf ∧ stale.wf ∧
    cstr req_add_overflow.operation = some (str "add") ∧
    Server.process_request req_add_overflow stale
      = some ⟨-2147483648, 0, 0 :: stale.error_msg.tail⟩ ∧
    exact_value (str "add") req_add_overflow.operand1 req_add_overflow.operand2
      = 2147483648 := by
  decide

/-- C1, amended: for a request whose operation is one of add, sub, mul, div,
with `int` operands, other than div with operand2 = 0, and whose exact value
is itself in the range of `int`, `process_request` returns a response with
error = 0 and result equal to that exact value (the quotient truncated
toward zero for div). -/
theorem C1_exact_when_representable (msg : message) (g : response) (op : List UInt8)
    (hm : msg.wf) (hg : g.wf) (hop : op ∈ codes) (hc : cstr msg.operation = some op)
    (hz : ¬ (op = str "div" ∧ msg.operand2 = 0))
    (hr : in_int (exact_value op msg.operand1 msg.operand2)) :
    ∃ r, Server.process_request msg g = some r ∧ r.error = 0 ∧
      r.result = exact_value op msg.operand1 msg.operand2 := by
  obtain ⟨d12, d13, d14, d23, d24, d34⟩ := str_codes_ne
  have hnt : ¬ traps msg := by
    rintro ⟨hd, ha, hb⟩
    rw [hc] at hd
    cases hd
    rw [ha, hb] at hr
    revert hr
    decide
  obtain ⟨r, hr1⟩ := process_request_defined msg g hm hg hnt
  refine ⟨r, hr1, ?_⟩
  rw [process_request_wf msg g hm hg] at hr1
  rcases response_shape msg g r hr1 with
    ⟨he, _, op', _, hc', _, hres⟩ | ⟨_, _, hc', hb, _⟩ | ⟨_, _, hno, _⟩
  · rw [hc] at hc'
    cases hc'
    exact ⟨he, by rw [hres, wrap32_of_in_int _ hr]⟩
  · rw [hc] at hc'
    cases hc'
    exact absurd ⟨rfl, hb⟩ hz
  · exact absurd hc (hno op hop)

/-- C1, amended, at add(2, 3): the response is error = 0, result = 5. -/
theorem C1_exact_when_representable_witness :
    req_add_2_3.wf ∧ stale.wf ∧
    ∃ r, Server.process_request req_add_2_3 stale = some r ∧ r.error = 0 ∧
      r.result = exact_value (str "add") 2 3 :=
  ⟨by decide, by decide,
    C1_exact_when_representable req_add_2_3 stale (str "add")
      (by decide) (by decide) (by decide) (by decide) (by decide) (by decide)⟩

/-- C2: for a request with operation div and operand2 = 0, whatever operand1
and client_pid are, `process_request` returns a response with error = 1 and
error_msg holding the string "Division by zero"; the result field keeps the
content it had before the call, so no quotient is computed or stored. -/
theorem C2_division_by_zero (msg : message) (g : response)
    (hm : msg.wf) (hg : g.wf) (hc : cstr msg.operation = some (str "div"))
    (hb : msg.operand2 = 0) :
    ∃ r, Server.process_request msg g = some r ∧ r.error = 1 ∧
      cstr r.error_msg = some (str "Division by zero") ∧ r.result = g.result := by
  obtain ⟨d12, d13, d14, d23, d24, d34⟩ := str_codes_ne
  rw [process_request_wf msg g hm hg]
  simp [response_of, hc, d14, d24, d34, hb, cstr_append _ str_dbz_nonzero]

/-- C2 at div(7, 0). -/
theorem C2_division_by_zero_witness :
    req_div_7_0.wf ∧ stale.wf ∧
    ∃ r, Server.process_request req_div_7_0 stale = some r ∧ r.error = 1 ∧
      cstr r.error_msg = some (str "Division by zero") ∧ r.result = stale.result :=
  ⟨by decide, by decide,
    C2_division_by_zero req_div_7_0 stale (by decide) (by decide) (by decide) (by decide)⟩

/-- C3: for a request whose 4-byte operation field, read as a NUL-terminated
string, is none of add, sub, mul, div (a field without NUL included), and
for every operand pair, `process_request` returns a response with error = 1
and error_msg holding the string "Invalid operation". -/
theorem C3_invalid_operation (msg : message) (g : response)
    (hm : msg.wf) (hg : g.wf) (hc : ∀ op ∈ codes, cstr msg.operation ≠ some op) :
    ∃ r, Server.process_request msg g = some r ∧ r.error = 1 ∧
      cstr r.error_msg = some (str "Invalid operation") := by
  have n1 := hc (str "add") (by simp [codes])
  have n2 := hc (str "sub") (by simp [codes])
  have n3 := hc (str "mul") (by simp [codes])
  have n4 := hc (str "div") (by simp [codes])
  rw [process_request_wf msg g hm hg]
  simp [response_of, n1, n2, n3, n4, cstr_append _ str_inv_nonzero]

/-- C3 at a field whose four bytes are "addd", without NUL. -/
theorem C3_invalid_operation_witness :
    req_no_nul.wf ∧ stale.wf ∧ cstr req_no_nul.operation = none ∧
    ∃ r, Server.process_request req_no_nul stale = some r ∧ r.error = 1 ∧
      cstr r.error_msg = some (str "Invalid operation") :=
  ⟨by decide, by decide, by decide,
    C3_invalid_operation req_no_nul stale (by decide) (by decide) (by decide)⟩

/-- C7, as stated, fails: the request div(7, 0) issued twice, the local
`resp` holding different stale contents, yields responses whose result
fields differ (12345 and -1), because the error paths never assign result. -/
theorem C7_counterexample :
    req_div_7_0.wf ∧ stale.wf ∧ stale_other.wf ∧
    (Server.process_request req_div_7_0 stale).map (fun r => r.result) = some 12345 ∧
    (Server.process_request req_div_7_0 stale_other).map (fun r => r.result) = some (-1) := by
  decide

/-- C7, amended: two requests with the same operation field and operands,
other than div(INT_MIN, -1), whatever their client_pid and whatever the
local `resp` held before each call, get responses with the same error, the
same string in error_msg, and, when error = 0, the same result. When error
is not 0, result is what the local `resp` held before the call; and the
bytes of error_msg after the terminator are always what it held. -/
theorem C7_same_request_same_answer (m1 m2 : message) (g1 g2 : response)
    (h1 : m1.wf) (h2 : m2.wf) (hg1 : g1.wf) (hg2 : g2.wf)
    (hop : m1.operation = m2.operation) (ha : m1.operand1 = m2.operand1)
    (hb : m1.operand2 = m2.operand2) (hnt : ¬ traps m1) :
    ∃ r1 r2, Server.process_request m1 g1 = some r1 ∧
      Server.process_request m2 g2 = some r2 ∧
      r1.error = r2.error ∧
      (∃ s, cstr r1.error_msg = some s ∧ cstr r2.error_msg = some s ∧
        r1.error_msg.drop (s.length + 1) = g1.error_msg.drop (s.length + 1) ∧
        r2.error_msg.drop (s.length + 1) = g2.error_msg.drop (s.length + 1)) ∧
      (r1.error = 0 → r1.result = r2.result) ∧
      (r1.error ≠ 0 → r1.result = g1.result ∧ r2.result = g2.result) := by
  have hnt2 : ¬ traps m2 := by
    unfold traps at hnt ⊢
    rw [← hop, ← ha, ← hb]
    exact hnt
  obtain ⟨r1, e1⟩ := process_request_defined m1 g1 h1 hg1 hnt
  obtain ⟨r2, e2⟩ := process_request_defined m2 g2 h2 hg2 hnt2
  refine ⟨r1, r2, e1, e2, ?_⟩
  rw [process_request_wf m1 g1 h1 hg1] at e1
  rw [process_request_wf m2 g2 h2 hg2] at e2
  have s1 := response_shape m1 g1 r1 e1
  have s2 := response_shape m2 g2 r2 e2
  rw [hop, ha, hb] at s1
  have l16 : (str "Division by zero").length = 16 := by decide
  have l17 : (str "Invalid operation").length = 17 := by decide
  have t1 := drop_after_store g1.error_msg 0
  have t2 := drop_after_store g2.error_msg 0
  rcases s1 with ⟨a1, a2, op, hmem, a3, a4, a5⟩ | ⟨a1, a2, a3, a4, a5⟩ | ⟨a1, a2, a3, a5⟩ <;>
    rcases s2 with ⟨b1, b2, op', hmem', b3, b4, b5⟩ | ⟨b1, b2, b3, b4, b5⟩ | ⟨b1, b2, b3, b5⟩
  · rw [a3] at b3
    cases b3
    refine ⟨by rw [a1, b1], ⟨[], by simp [a2, cstr], by simp [b2, cstr], ?_, ?_⟩,
      fun _ => by rw [a5, b5], fun h => absurd a1 h⟩
    · rw [a2]; exact t1
    · rw [b2]; exact t2
  · rw [a3] at b3
    cases b3
    exact absurd ⟨rfl, b4⟩ a4
  · exact absurd a3 (b3 op hmem)
  · rw [b3] at a3
    cases a3
    exact absurd ⟨rfl, a4⟩ b4
  · refine ⟨by rw [a1, b1],
      ⟨str "Division by zero", by rw [a5]; exact cstr_append _ str_dbz_nonzero _,
        by rw [b5]; exact cstr_append _ str_dbz_nonzero _, ?_, ?_⟩,
      fun h => by rw [a1] at h; exact absurd h (by decide), fun _ => ⟨a2, b2⟩⟩
    · rw [a5, drop_past, l16]
    · rw [b5, drop_past, l16]
  · exact absurd a3 (b3 _ (by simp [codes]))
  · exact absurd b3 (a3 op' hmem')
  · exact absurd b3 (a3 _ (by simp [codes]))
  · refine ⟨by rw [a1, b1],
      ⟨str "Invalid operation", by rw [a5]; exact cstr_append _ str_inv_nonzero _,
        by rw [b5]; exact cstr_append _ str_inv_nonzero _, ?_, ?_⟩,
      fun h => by rw [a1] at h; exact absurd h (by decide), fun _ => ⟨a2, b2⟩⟩
    · rw [a5, drop_past, l17]
    · rw [b5, drop_past, l17]

/-- C7, amended, at div(7, 0) sent by two clients. -/
theorem C7_same_request_same_answer_witness :
    req_div_7_0.wf ∧ req_div_7_0_other.wf ∧ stale.wf ∧ stale_other.wf ∧
    ¬ traps req_div_7_0 ∧
    ∃ r1 r2, Server.process_request req_div_7_0 stale = some r1 ∧
      Server.process_request req_div_7_0_other stale_other = some r2 ∧
      r1.error = r2.error ∧
      (∃ s, cstr r1.error_msg = some s ∧ cstr r2.error_msg = some s ∧
        r1.error_msg.drop (s.length + 1) = stale.error_msg.drop (s.length + 1) ∧
        r2.error_msg.drop (s.length + 1) = stale_other.error_msg.drop (s.length + 1)) ∧
      (r1.error = 0 → r1.result = r2.result) ∧
      (r1.error ≠ 0 → r1.result = stale.result ∧ r2.result = stale_other.result) :=
  ⟨by decide, by decide, by decide, by decide, by decide,
    C7_same_request_same_answer req_div_7_0 req_div_7_0_other stale stale_other
      (by decide) (by decide) (by decide) (by decide) (by decide) (by decide) (by decide)
      (by decide)⟩

theorem cstr_eq_some : ∀ (buf s : List UInt8), cstr buf = some s →
    ∃ rest, buf = s ++ 0 :: rest := by
  intro buf
  induction buf with
  | nil => intro s h; simp [cstr] at h
  | cons x xs ih =>
    intro s h
    by_cases hx : x = 0
    · subst hx
      simp only [cstr, if_true, Option.some.injEq] at h
      subst h
      exact ⟨xs, rfl⟩
    · simp only [cstr, hx, if_false] at h
      cases hcs : cstr xs with
      | none => rw [hcs] at h; simp at h
      | some t =>
        rw [hcs] at h
        simp only [Option.map_some', Option.some.injEq] at h
        subst h
        obtain ⟨rest, hrest⟩ := ih t hcs
        exact ⟨rest, by rw [hrest]; rfl⟩

theorem is_valid_operation_eq (buf : List UInt8) (hlen : 3 < buf.length) :
    Client.is_valid_operation buf
      = some (if ∃ op ∈ codes, cstr buf = some op then 1 else 0) := by
  obtain ⟨c1, h1, e1⟩ := strcmp_lit (str "add") str_add_nonzero buf (by simpa [str] using hlen)
  obtain ⟨c2, h2, e2⟩ := strcmp_lit (str "sub") str_sub_nonzero buf (by simpa [str] using hlen)
  obtain ⟨c3, h3, e3⟩ := strcmp_lit (str "mul") str_mul_nonzero buf (by simpa [str] using hlen)
  obtain ⟨c4, h4, e4⟩ := strcmp_lit (str "div") str_div_nonzero buf (by simpa [str] using hlen)
  have hex : (∃ op ∈ codes, cstr buf = some op) ↔ (c1 = 0 ∨ c2 = 0 ∨ c3 = 0 ∨ c4 = 0) := by
    rw [e1, e2, e3, e4]
    simp [codes]
  unfold Client.is_valid_operation
  simp only [lit, h1, h2, h3, h4, Option.bind_eq_bind, Option.some_bind, Option.pure_def]
  rw [if_congr hex rfl rfl]
  by_cases hc1 : c1 = 0
  · simp [hc1]
  · by_cases hc2 : c2 = 0
    · simp [hc1, hc2]
    · by_cases hc3 : c3 = 0
      · simp [hc1, hc2, hc3]
      · by_cases hc4 : c4 = 0
        · simp [hc1, hc2, hc3, hc4]
        · simp [hc1, hc2, hc3, hc4]

theorem copy_operation_code (field buf op : List UInt8) (hf : field.length = 4)
    (hop : op ∈ codes) (hc : cstr buf = some op) :
    Client.copy_operation field buf = some (op ++ [0]) := by
  obtain ⟨rest, rfl⟩ := cstr_eq_some buf op hc
  match field, hf with
  | [f0, f1, f2, f3], _ =>
    simp only [codes, List.mem_cons, List.mem_singleton, List.not_mem_nil, or_false] at hop
    have a1 : str "add" = [97, 100, 100] := by decide
    have a2 : str "sub" = [115, 117, 98] := by decide
    have a3 : str "mul" = [109, 117, 108] := by decide
    have a4 : str "div" = [100, 105, 118] := by decide
    rcases hop with h | h | h | h <;> subst h
    · rw [a1]; simp [Client.copy_operation, strncpy, store]
    · rw [a2]; simp [Client.copy_operation, strncpy, store]
    · rw [a3]; simp [Client.copy_operation, strncpy, store]
    · rw [a4]; simp [Client.copy_operation, strncpy, store]

theorem codes_nonzero : ∀ op ∈ codes, ∀ c ∈ op, c ≠ 0 := by decide

theorem response_of_code (msg : message) (g r : response)
    (hc : ∃ op ∈ codes, cstr msg.operation = some op) (hr : response_of msg g = some r) :
    cstr r.error_msg ≠ some (str "Invalid operation") := by
  have dne : str "Division by zero" ≠ str "Invalid operation" := by decide
  have ene : ([] : List UInt8) ≠ str "Invalid operation" := by decide
  rcases response_shape msg g r hr with
    ⟨_, a2, _⟩ | ⟨_, _, _, _, a5⟩ | ⟨_, _, hno, _⟩
  · rw [a2]
    simpa [cstr] using ene
  · rw [a5, cstr_append _ str_dbz_nonzero]
    simpa using dne
  · obtain ⟨op, hop, h⟩ := hc
    exact absurd h (hno op hop)

/-- C9: for the string `op` that `scanf("%9s")` left in `char operation[10]`,
`is_valid_operation` returns non-zero exactly when `op` is one of add, sub,
mul, div; and then the 4-byte field the client builds is that code followed
by NUL, and for all `int` operands no response `process_request` returns to a
request carrying that field says "Invalid operation". A response is returned
for all operands other than div(INT_MIN, -1). -/
theorem C9_client_validation (buf op : List UInt8)
    (hlen : buf.length = 10) (hop : cstr buf = some op) :
    ∃ v, Client.is_valid_operation buf = some v ∧ (v ≠ 0 ↔ op ∈ codes) ∧
      (v ≠ 0 → ∀ field : List UInt8, field.length = 4 →
        ∃ f, Client.copy_operation field buf = some f ∧ f = op ++ [0] ∧
          cstr f = some op ∧
          ∀ (a b pid : Int) (g : response),
            in_int a → in_int b → in_int pid → g.wf →
            (∀ r, Server.process_request ⟨f, a, b, pid⟩ g = some r →
              cstr r.error_msg ≠ some (str "Invalid operation")) ∧
            (¬ (op = str "div" ∧ a = INT_MIN ∧ b = -1) →
              ∃ r, Server.process_request ⟨f, a, b, pid⟩ g = some r)) := by
  have hiff : (∃ o ∈ codes, cstr buf = some o) ↔ op ∈ codes := by
    rw [hop]
    constructor
    · rintro ⟨o, ho, h⟩
      cases h
      exact ho
    · intro h
      exact ⟨op, h, rfl⟩
  refine ⟨_, is_valid_operation_eq buf (by rw [hlen]; decide), ?_, ?_⟩
  · rw [← hiff]
    by_cases h : ∃ o ∈ codes, cstr buf = some o
    · simp [h]
    · simp [h]
  · intro hv field hf
    have hmem : op ∈ codes := by
      rw [← hiff]
      by_contra h
      simp [h] at hv
    have hcs : cstr (op ++ [0]) = some op := cstr_append op (codes_nonzero op hmem) []
    refine ⟨_, copy_operation_code field buf op hf hmem hop, rfl, hcs, ?_⟩
    intro a b pid g ha hb hp hg
    have hl4 : (op ++ [0]).length = 4 := by
      simp only [codes, List.mem_cons, List.mem_singleton, List.not_mem_nil, or_false] at hmem
      rcases hmem with r | r | r | r <;> subst r <;> decide
    have hwf : (⟨op ++ [0], a, b, pid⟩ : message).wf := ⟨hl4, ha, hb, hp⟩
    constructor
    · intro r hr
      rw [process_request_wf _ g hwf hg] at hr
      exact response_of_code _ g r ⟨op, hmem, hcs⟩ hr
    · intro hnt
      apply process_request_defined _ g hwf hg
      rintro ⟨h1, h2, h3⟩
      rw [hcs] at h1
      cases h1
      exact hnt ⟨rfl, h2, h3⟩

/-- C9 at the input "mul". -/
theorem C9_client_validation_witness :
    input_mul.length = 10 ∧ cstr input_mul = some (str "mul") ∧
    ∃ v, Client.is_valid_operation input_mul = some v ∧ (v ≠ 0 ↔ str "mul" ∈ codes) ∧
      (v ≠ 0 → ∀ field : List UInt8, field.length = 4 →
        ∃ f, Client.copy_operation field input_mul = some f ∧ f = str "mul" ++ [0] ∧
          cstr f = some (str "mul") ∧
          ∀ (a b pid : Int) (g : response),
            in_int a → in_int b → in_int pid → g.wf →
            (∀ r, Server.process_request ⟨f, a, b, pid⟩ g = some r →
              cstr r.error_msg ≠ some (str "Invalid operation")) ∧
            (¬ (str "mul" = str "div" ∧ a = INT_MIN ∧ b = -1) →
              ∃ r, Server.process_request ⟨f, a, b, pid⟩ g = some r)) :=
  ⟨by decide, by decide, C9_client_validation input_mul (str "mul") (by decide) (by decide)⟩

/-! ## The server's loop -/

namespace Server

theorem cleanup_fs (s : State) :
    REQUEST_FIFO ∉ (cleanup s).fs ∧ RESPONSE_FIFO ∉ (cleanup s).fs := by
  unfold cleanup unlink emit
  simp [List.mem_filter]

theorem cleanup_fields (s : State) :
    (cleanup s).keep_running = s.keep_running ∧ (cleanup s).workers = s.workers := by
  by_cases h1 : s.request_fd = -1 <;> by_cases h2 : s.log_file = true <;>
    simp [cleanup, unlink, emit, h1, h2]

theorem cleanup_trace (s : State) :
    Effect.unlink REQUEST_FIFO ∈ (cleanup s).trace ∧
    Effect.unlink RESPONSE_FIFO ∈ (cleanup s).trace := by
  unfold cleanup unlink emit
  split_ifs <;> simp

theorem shutdown_eq (s : State) :
    ∃ sf, shutdown s = .returned 0 sf ∧ sf.keep_running = s.keep_running ∧
      REQUEST_FIFO ∉ sf.fs ∧ RESPONSE_FIFO ∉ sf.fs ∧
      Effect.unlink REQUEST_FIFO ∈ sf.trace ∧ Effect.unlink RESPONSE_FIFO ∈ sf.trace := by
  refine ⟨_, rfl, ?_, ?_, ?_, ?_, ?_⟩
  · simp [emit, (cleanup_fields _).1]
  · simpa [emit] using (cleanup_fs _).1
  · simpa [emit] using (cleanup_fs _).2
  · simp [emit, (cleanup_trace _).1]
  · simp [emit, (cleanup_trace _).2]

theorem loop_body_next (pid : Int) (s : State) (it : Iteration)
    (hopen : it.open_ret = -1 → it.open_errno = EINTR) (hfork : it.fork_ret ≠ 0) :
    (loop_body pid s it).2 = .next := by
  unfold loop_body
  by_cases h1 : it.open_ret = -1
  · simp [h1, hopen h1]
  · by_cases h2 : it.bytes_read = sizeof_message
    · by_cases h3 : it.fork_ret < 0
      · simp [h1, h2, h3]
      · simp [h1, h2, h3, hfork]
    · by_cases h4 : it.bytes_read = 0
      · simp [h1, h4, sizeof_message]
      · simp [h1, h2, h4]

theorem loop_body_ret (pid : Int) (s : State) (it : Iteration) (c : Int)
    (h : (loop_body pid s it).2 = .ret c) :
    c = 1 ∧ it.open_ret = -1 ∧ it.open_errno ≠ EINTR ∧
      REQUEST_FIFO ∉ (loop_body pid s it).1.fs ∧ RESPONSE_FIFO ∉ (loop_body pid s it).1.fs := by
  unfold loop_body at h ⊢
  by_cases h1 : it.open_ret = -1
  · by_cases h0 : it.open_errno = EINTR
    · simp [h1, h0] at h
    · simp only [h1, h0, if_true, if_false, Control.ret.injEq] at h ⊢
      exact ⟨h.symm, trivial, h0, cleanup_fs _⟩
  · by_cases h2 : it.bytes_read = sizeof_message
    · by_cases h3 : it.fork_ret < 0
      · simp [h1, h2, h3] at h
      · by_cases h5 : it.fork_ret = 0
        · simp [h1, h2, h3, h5] at h
        · simp [h1, h2, h3, h5] at h
    · by_cases h4 : it.bytes_read = 0
      · simp [h1, h4, sizeof_message] at h
      · simp [h1, h2, h4] at h

theorem dispatch_loop_returned (pid : Int) :
    ∀ (its : List Iteration) (s : State) (c : Int) (sf : State),
      dispatch_loop pid s its = .returned c sf →
      ((sf.keep_running = 0 ∧ c = 0) ∨
        (c = 1 ∧ ∃ it ∈ its, it.open_ret = -1 ∧ it.open_errno ≠ EINTR)) ∧
      REQUEST_FIFO ∉ sf.fs ∧ RESPONSE_FIFO ∉ sf.fs := by
  intro its
  induction its with
  | nil =>
    intro s c sf h
    unfold dispatch_loop at h
    by_cases hk : s.keep_running = 0
    · obtain ⟨sf', he, hkr, hf1, hf2, _, _⟩ := shutdown_eq s
      simp only [hk, ne_eq, not_true_eq_false, if_false, he, Outcome.returned.injEq] at h
      obtain ⟨rfl, rfl⟩ := h
      exact ⟨Or.inl ⟨by rw [hkr, hk], rfl⟩, hf1, hf2⟩
    · simp [hk] at h
  | cons it rest ih =>
    intro s c sf h
    unfold dispatch_loop at h
    by_cases hk : s.keep_running = 0
    · obtain ⟨sf', he, hkr, hf1, hf2, _, _⟩ := shutdown_eq s
      simp only [hk, ne_eq, not_true_eq_false, if_false, he, Outcome.returned.injEq] at h
      obtain ⟨rfl, rfl⟩ := h
      exact ⟨Or.inl ⟨by rw [hkr, hk], rfl⟩, hf1, hf2⟩
    · simp only [ne_eq, hk, not_false_eq_true, if_true] at h
      rcases hb : loop_body pid s it with ⟨s', ctl⟩
      rw [hb] at h
      cases ctl with
      | next =>
        simp only at h
        obtain ⟨h1, h2, h3⟩ := ih s' c sf h
        refine ⟨?_, h2, h3⟩
        rcases h1 with h1 | ⟨hc, it', hmem, hit⟩
        · exact Or.inl h1
        · exact Or.inr ⟨hc, it', List.mem_cons_of_mem _ hmem, hit⟩
      | ret code =>
        simp only [Outcome.returned.injEq] at h
        obtain ⟨rfl, rfl⟩ := h
        have hr := loop_body_ret pid s it code (by rw [hb])
        rw [hb] at hr
        exact ⟨Or.inr ⟨hr.1, it, List.mem_cons_self _ _, hr.2.1, hr.2.2.1⟩, hr.2.2.2.1, hr.2.2.2.2⟩
      | worker m =>
        simp at h

theorem deliver_fields (s : State) (sig : Option Int) :
    (deliver s sig).workers = s.workers ∧ (deliver s sig).fs = s.fs ∧
      (sig = none → deliver s sig = s) := by
  cases sig <;> simp [deliver, signal_handler, emit]

theorem loop_body_keep_running (pid : Int) (s : State) (it : Iteration) :
    (loop_body pid s it).1.keep_running = (deliver s it.signal).keep_running := by
  unfold loop_body
  by_cases h1 : it.open_ret = -1
  · by_cases h0 : it.open_errno = EINTR
    · simp [h1, h0]
    · simp [h1, h0, (cleanup_fields _).1, emit]
  · have hne : ¬ sizeof_message = -1 := by decide
    by_cases h2 : it.bytes_read = sizeof_message
    · by_cases h3 : it.fork_ret < 0
      · simp [h1, h2, h3, hne, emit]
      · by_cases h5 : it.fork_ret = 0
        · simp [h1, h2, h5, hne, emit]
        · simp [h1, h2, h3, h5, hne, emit]
    · by_cases h4 : it.bytes_read = 0
      · simp [h1, h4, sizeof_message, emit]
      · by_cases h6 : it.bytes_read = -1
        · by_cases h7 : it.read_errno = EINTR
          · simp [h1, h6, h7, sizeof_message, emit]
          · simp [h1, h6, h7, sizeof_message, emit]
        · by_cases h8 : (deliver s it.signal).errno = EINTR
          · simp [h1, h2, h4, h6, h8, emit]
          · simp [h1, h2, h4, h6, h8, emit]

theorem dispatch_loop_step (pid : Int) (s : State) (it : Iteration) (rest : List Iteration)
    (hk : s.keep_running ≠ 0) (hn : (loop_body pid s it).2 = .next) :
    dispatch_loop pid s (it :: rest) = dispatch_loop pid (loop_body pid s it).1 rest := by
  rw [dispatch_loop, if_pos hk]
  rcases hb : loop_body pid s it with ⟨s', ctl⟩
  rw [hb] at hn
  simp only at hn
  subst hn
  rfl

theorem dispatch_loop_stop (pid : Int) (s : State) (its : List Iteration)
    (hk : s.keep_running = 0) : dispatch_loop pid s its = shutdown s := by
  cases its <;> simp [dispatch_loop, hk]

theorem startup_failed_fs (st : Startup) (c : Int) (sf : State)
    (h : startup st = .inr (c, sf)) (hlog : st.fopen_ok = true)
    (hreq : st.mkfifo_request = none) :
    REQUEST_FIFO ∉ sf.fs ∧ RESPONSE_FIFO ∉ sf.fs := by
  have hne : RESPONSE_FIFO ≠ REQUEST_FIFO := by decide
  unfold startup at h
  cases hresp : st.mkfifo_response with
  | none =>
    simp [hlog, hreq, hresp, mkfifo, unlink, emit, List.mem_filter, hne] at h
  | some e =>
    simp [hlog, hreq, hresp, mkfifo, unlink, emit, List.mem_filter, hne] at h
    obtain ⟨_, rfl⟩ := h
    simp [List.mem_filter, hne, List.filter_filter]

end Server

/-- C4: when `read` in the server's loop returns anything but
`sizeof(struct message)`, the pass creates no child, does not end in the
worker branch, and does not depend on the bytes in `msg`; when `read` in
`communicate_with_server` returns anything but `sizeof(struct response)`, the
function returns -1, shows no result, and does not depend on the bytes in
`resp`. -/
theorem C4_exact_size_only (pid : Int) (s : Server.State) (it : Server.Iteration)
    (msg : message) (io : Client.Session)
    (hs : it.bytes_read ≠ sizeof_message) (hc : io.bytes_read ≠ sizeof_response) :
    ((Server.loop_body pid s it).1.workers = s.workers ∧
      (∀ m, (Server.loop_body pid s it).2 ≠ .worker m) ∧
      ∀ b, Server.loop_body pid s { it with buf := b } = Server.loop_body pid s it) ∧
    ((Client.communicate_with_server msg io).1 = -1 ∧
      (∀ e ∈ (Client.communicate_with_server msg io).2, Client.displays_result e = false) ∧
      ∀ r, Client.communicate_with_server msg { io with resp := r }
        = Client.communicate_with_server msg io) := by
  have hw := (Server.deliver_fields s it.signal).1
  constructor
  · unfold Server.loop_body
    by_cases h1 : it.open_ret = -1
    · by_cases h0 : it.open_errno = EINTR
      · simp [h1, h0, hw]
      · simp [h1, h0, hw, (Server.cleanup_fields _).2, Server.emit]
    · by_cases h4 : it.bytes_read = 0
      · simp [h1, h4, sizeof_message, hw, Server.emit]
      · by_cases h6 : it.bytes_read = -1
        · by_cases h7 : it.read_errno = EINTR
          · simp [h1, h6, h7, sizeof_message, hw, Server.emit]
          · simp [h1, h6, h7, sizeof_message, hw, Server.emit]
        · by_cases h8 : (Server.deliver s it.signal).errno = EINTR
          · simp [h1, hs, h4, h6, h8, hw, Server.emit]
          · simp [h1, hs, h4, h6, h8, hw, Server.emit]
  · unfold Client.communicate_with_server
    by_cases g1 : io.open_request = -1
    · simp [g1, Client.displays_result]
    · by_cases g2 : io.write_ret = -1
      · simp [g1, g2, Client.displays_result]
      · by_cases g3 : io.open_response = -1
        · simp [g1, g2, g3, Client.displays_result]
        · simp [g1, g2, g3, hc, Client.displays_result]

/-- C4 at a 7-byte read in the server and a 10-byte read in the client. -/
theorem C4_exact_size_only_witness :
    pass_short_read.bytes_read ≠ sizeof_message ∧
    session_short.bytes_read ≠ sizeof_response ∧
    (Server.loop_body 1000 ready pass_short_read).1.workers = ready.workers ∧
    (Client.communicate_with_server req_add_2_3 session_short).1 = -1 :=
  ⟨by decide, by decide,
    (C4_exact_size_only 1000 ready pass_short_read req_add_2_3 session_short
      (by decide) (by decide)).1.1,
    (C4_exact_size_only 1000 ready pass_short_read req_add_2_3 session_short
      (by decide) (by decide)).2.1⟩

/-- C5, as stated, fails: after a complete startup, a pass whose `open` fails
with EACCES makes `main` return 1 while keep_running is still 1. -/
theorem C5_counterexample :
    (Server.startup boot).isLeft = true ∧
    (Server.main boot [pass_open_denied]).code = some 1 ∧
    (Server.main boot [pass_open_denied]).state.keep_running = 1 := by
  decide

/-- C5, amended: in the loop, a pass whose `open` succeeds or is interrupted
(EINTR) never makes the parent's `main` return, whatever `read` and `fork`
answer: the loop goes on to its next test, and without a termination signal
the server is still running. A pass whose `open` fails with any other error
makes `main` report the error, run `cleanup` and return 1, with keep_running
unchanged when no termination signal arrived. After a complete startup
`main` returns only with code 0 after keep_running became 0, or with code 1
after such an `open` failure. -/
theorem C5_returns_only_on_shutdown_or_open_failure
    (pid : Int) (s : Server.State) (it bad : Server.Iteration) (rest : List Server.Iteration)
    (st : Server.Startup) (its : List Server.Iteration) (c : Int) (sf : Server.State)
    (hk : s.keep_running ≠ 0) (hopen : it.open_ret = -1 → it.open_errno = EINTR)
    (hfork : it.fork_ret ≠ 0)
    (hbad : bad.open_ret = -1 ∧ bad.open_errno ≠ EINTR)
    (hstart : (Server.startup st).isLeft = true)
    (hrun : Server.main st its = .returned c sf) :
    (Server.dispatch_loop pid s (it :: rest)
        = Server.dispatch_loop pid (Server.loop_body pid s it).1 rest ∧
      (it.signal = none →
        Server.dispatch_loop pid s [it] = .running (Server.loop_body pid s it).1)) ∧
    (Server.dispatch_loop pid s (bad :: rest)
        = .returned 1 (Server.cleanup (Server.emit
            { Server.deliver s bad.signal with request_fd := -1, errno := bad.open_errno }
            (.perror "Server: Error opening request FIFO"))) ∧
      (bad.signal = none →
        (Server.cleanup (Server.emit
            { Server.deliver s bad.signal with request_fd := -1, errno := bad.open_errno }
            (.perror "Server: Error opening request FIFO"))).keep_running
          = s.keep_running)) ∧
    ((sf.keep_running = 0 ∧ c = 0) ∨
      (c = 1 ∧ ∃ p ∈ its, p.open_ret = -1 ∧ p.open_errno ≠ EINTR)) := by
  have hn := Server.loop_body_next pid s it hopen hfork
  refine ⟨⟨Server.dispatch_loop_step pid s it rest hk hn, ?_⟩, ⟨?_, ?_⟩, ?_⟩
  · intro hsig
    rw [Server.dispatch_loop_step pid s it [] hk hn]
    have hkr := Server.loop_body_keep_running pid s it
    rw [(Server.deliver_fields s it.signal).2.2 hsig] at hkr
    rw [Server.dispatch_loop, if_pos (by rw [hkr]; exact hk)]
  · have hb : Server.loop_body pid s bad =
        (Server.cleanup (Server.emit
          { Server.deliver s bad.signal with request_fd := -1, errno := bad.open_errno }
          (.perror "Server: Error opening request FIFO")), .ret 1) := by
      unfold Server.loop_body
      simp [hbad.1, hbad.2]
    rw [Server.dispatch_loop, if_pos hk, hb]
  · intro hsig
    rw [(Server.cleanup_fields _).1, (Server.deliver_fields s bad.signal).2.2 hsig]
    rfl
  · unfold Server.main at hrun
    cases hs : Server.startup st with
    | inr p => rw [hs] at hstart; simp at hstart
    | inl s0 =>
      rw [hs] at hrun
      exact (Server.dispatch_loop_returned st.pid its s0 c sf hrun).1

/-- C5, amended, at a fork failure in the loop, at an `open` failing with
EACCES, and at a run ended by SIGTERM. -/
theorem C5_returns_only_on_shutdown_or_open_failure_witness :
    (Server.dispatch_loop 1000 ready [pass_fork_failed]
      = .running (Server.loop_body 1000 ready pass_fork_failed).1) ∧
    (Server.dispatch_loop 1000 ready [pass_open_denied]).code = some 1 ∧
    (Server.main boot [pass_ok, pass_sigterm]).code = some 0 :=
  ⟨(C5_returns_only_on_shutdown_or_open_failure 1000 ready pass_fork_failed pass_open_denied []
      boot [pass_ok, pass_sigterm] 0 (Server.main boot [pass_ok, pass_sigterm]).state
      (by decide) (by decide) (by decide) (by decide) (by decide) (by decide)).1.2 (by decide),
    by decide, by decide⟩

/-- C6: with `unlink` taken to succeed, whenever `main` returns in a run in
which the log was opened and the request FIFO was created (the second
`mkfifo` failed, the loop ended on the flag, or `open` failed in the loop),
neither /tmp/fifo_request nor /tmp/fifo_response exists afterwards; and
when keep_running is 0 at the top of the loop, `main` runs `cleanup`, which
unlinks both paths, and returns 0. -/
theorem C6_conduits_removed
    (st : Server.Startup) (its : List Server.Iteration) (c : Int) (sf : Server.State)
    (pid : Int) (s : Server.State) (rest : List Server.Iteration)
    (hrun : Server.main st its = .returned c sf)
    (hlog : st.fopen_ok = true) (hreq : st.mkfifo_request = none)
    (hstop : s.keep_running = 0) :
    (REQUEST_FIFO ∉ sf.fs ∧ RESPONSE_FIFO ∉ sf.fs) ∧
    ∃ sf', Server.dispatch_loop pid s rest = .returned 0 sf' ∧
      REQUEST_FIFO ∉ sf'.fs ∧ RESPONSE_FIFO ∉ sf'.fs ∧
      Effect.unlink REQUEST_FIFO ∈ sf'.trace ∧ Effect.unlink RESPONSE_FIFO ∈ sf'.trace := by
  constructor
  · unfold Server.main at hrun
    cases hs : Server.startup st with
    | inr p =>
      obtain ⟨code, s1⟩ := p
      rw [hs] at hrun
      simp only [Server.Outcome.returned.injEq] at hrun
      obtain ⟨rfl, rfl⟩ := hrun
      exact Server.startup_failed_fs st code s1 hs hlog hreq
    | inl s0 =>
      rw [hs] at hrun
      exact (Server.dispatch_loop_returned st.pid its s0 c sf hrun).2
  · obtain ⟨sf', he, _, h1, h2, h3, h4⟩ := Server.shutdown_eq s
    exact ⟨sf', by rw [Server.dispatch_loop_stop pid s rest hstop, he], h1, h2, h3, h4⟩

/-- C6 at a run whose second `mkfifo` fails and at a loop stopped by the
flag. -/
theorem C6_conduits_removed_witness :
    (Server.main boot_second_mkfifo_fails []).code = some 1 ∧
    (REQUEST_FIFO ∉ (Server.main boot_second_mkfifo_fails []).state.fs ∧
      RESPONSE_FIFO ∉ (Server.main boot_second_mkfifo_fails []).state.fs) ∧
    ∃ sf', Server.dispatch_loop 1000 stopping [pass_ok] = .returned 0 sf' ∧
      REQUEST_FIFO ∉ sf'.fs ∧ RESPONSE_FIFO ∉ sf'.fs ∧
      Effect.unlink REQUEST_FIFO ∈ sf'.trace ∧ Effect.unlink RESPONSE_FIFO ∈ sf'.trace :=
  ⟨by decide,
    C6_conduits_removed boot_second_mkfifo_fails [] 1
      (Server.main boot_second_mkfifo_fails []).state 1000 stopping [pass_ok]
      (by decide) (by decide) (by decide) (by decide)⟩

/-- C10: in a pass entered with keep_running set, (1) a failed `fork` after
a full-size read and (2) a zero-length read each change nothing but
`request_fd`, `errno` and the trace: no child is created, the request
descriptor is closed as the last action of the pass, keep_running is
untouched, and control goes back to the loop test, so that without a
termination signal the server is still running; (3) an `open` interrupted
with EINTR reports no error, closes nothing and changes only `request_fd`
and `errno` before going back to the loop test. At the loop test a cleared
flag ends the loop. -/
theorem C10_dropped_request_is_not_fatal
    (pid : Int) (s : Server.State) (rest : List Server.Iteration)
    (it1 it2 it3 : Server.Iteration)
    (hk : s.keep_running ≠ 0)
    (h1 : it1.open_ret ≠ -1 ∧ it1.bytes_read = sizeof_message ∧ it1.fork_ret < 0)
    (h2 : it2.open_ret ≠ -1 ∧ it2.bytes_read = 0)
    (h3 : it3.open_ret = -1 ∧ it3.open_errno = EINTR) :
    (∃ s', Server.loop_body pid s it1 = (s', .next) ∧ s'.workers = s.workers ∧
      s'.trace = (Server.deliver s it1.signal).trace ++
        [.printf "Server [Parent PID %d]: Received request from Client PID %d\n"
            [pid, it1.buf.client_pid],
          .perror "Server: Fork failed", .close it1.open_ret] ∧
      s' = { Server.deliver s it1.signal with
              request_fd := it1.open_ret, errno := it1.fork_errno, trace := s'.trace } ∧
      Server.dispatch_loop pid s (it1 :: rest) = Server.dispatch_loop pid s' rest ∧
      (it1.signal = none → s'.keep_running = s.keep_running ∧
        Server.dispatch_loop pid s [it1] = .running s')) ∧
    (∃ s', Server.loop_body pid s it2 = (s', .next) ∧ s'.workers = s.workers ∧
      s'.trace = (Server.deliver s it2.signal).trace ++
        [.printf "Server: Client disconnected, waiting for next request...\n" [],
          .close it2.open_ret] ∧
      s' = { Server.deliver s it2.signal with request_fd := -1, trace := s'.trace } ∧
      Server.dispatch_loop pid s (it2 :: rest) = Server.dispatch_loop pid s' rest ∧
      (it2.signal = none → s'.keep_running = s.keep_running ∧
        Server.dispatch_loop pid s [it2] = .running s')) ∧
    (∃ s', Server.loop_body pid s it3 = (s', .next) ∧
      s' = { Server.deliver s it3.signal with request_fd := -1, errno := EINTR } ∧
      Server.dispatch_loop pid s (it3 :: rest) = Server.dispatch_loop pid s' rest ∧
      (it3.signal = none → s'.keep_running = s.keep_running ∧
        Server.dispatch_loop pid s [it3] = .running s')) ∧
    (∀ s' : Server.State, s'.keep_running = 0 →
      Server.dispatch_loop pid s' rest = Server.shutdown s') := by
  have hne : ¬ sizeof_message = -1 := by decide
  obtain ⟨a1, a2, a3⟩ := h1
  obtain ⟨b1, b2⟩ := h2
  obtain ⟨c1, c2⟩ := h3
  have e1 : Server.loop_body pid s it1 =
      ({ (Server.deliver s it1.signal) with
          request_fd := it1.open_ret, errno := it1.fork_errno,
          trace := (Server.deliver s it1.signal).trace ++
            [.printf "Server [Parent PID %d]: Received request from Client PID %d\n"
                [pid, it1.buf.client_pid],
              .perror "Server: Fork failed", .close it1.open_ret] }, .next) := by
    unfold Server.loop_body
    simp [a1, a2, a3, hne, Server.emit]
  have e2 : Server.loop_body pid s it2 =
      ({ (Server.deliver s it2.signal) with
          request_fd := -1,
          trace := (Server.deliver s it2.signal).trace ++
            [.printf "Server: Client disconnected, waiting for next request...\n" [],
              .close it2.open_ret] }, .next) := by
    unfold Server.loop_body
    simp [b1, b2, sizeof_message, Server.emit]
  have e3 : Server.loop_body pid s it3 =
      ({ (Server.deliver s it3.signal) with request_fd := -1, errno := EINTR }, .next) := by
    unfold Server.loop_body
    simp [c1, c2]
  have still : ∀ (it : Server.Iteration) (s' : Server.State),
      Server.loop_body pid s it = (s', .next) → it.signal = none →
      s'.keep_running = s.keep_running ∧ Server.dispatch_loop pid s [it] = .running s' := by
    intro it s' he hsig
    have hkr := Server.loop_body_keep_running pid s it
    rw [(Server.deliver_fields s it.signal).2.2 hsig, he] at hkr
    refine ⟨hkr, ?_⟩
    rw [Server.dispatch_loop_step pid s it [] hk (by rw [he]), he]
    rw [Server.dispatch_loop, if_pos (by rw [hkr]; exact hk)]
  refine ⟨⟨_, e1, ?_, rfl, rfl, ?_, still it1 _ e1⟩, ⟨_, e2, ?_, rfl, rfl, ?_, still it2 _ e2⟩,
    ⟨_, e3, rfl, ?_, still it3 _ e3⟩, ?_⟩
  · exact (Server.deliver_fields s it1.signal).1
  · have := Server.dispatch_loop_step pid s it1 rest hk (by rw [e1])
    rw [this, e1]
  · exact (Server.deliver_fields s it2.signal).1
  · have := Server.dispatch_loop_step pid s it2 rest hk (by rw [e2])
    rw [this, e2]
  · have := Server.dispatch_loop_step pid s it3 rest hk (by rw [e3])
    rw [this, e3]
  · intro s' hs'
    exact Server.dispatch_loop_stop pid s' rest hs'

/-- C10 at a fork failure, a zero-length read and an interrupted `open`: after
the three passes in a row the server is still running. -/
theorem C10_dropped_request_is_not_fatal_witness :
    (Server.loop_body 1000 ready pass_fork_failed).2 = .next ∧
    (Server.loop_body 1000 ready pass_zero_read).2 = .next ∧
    (Server.loop_body 1000 ready pass_eintr).2 = .next ∧
    (Server.dispatch_loop 1000 ready [pass_fork_failed, pass_zero_read, pass_eintr]).code
      = none ∧
    (∀ s' : Server.State, s'.keep_running = 0 →
      Server.dispatch_loop 1000 s' [pass_ok] = Server.shutdown s') :=
  ⟨by decide, by decide, by decide, by decide,
    (C10_dropped_request_is_not_fatal 1000 ready [pass_ok]
      pass_fork_failed pass_zero_read pass_eintr
      (by decide) (by decide) (by decide) (by decide)).2.2.2⟩

end Ipc
